import Mathlib

/-!
# Verification of the QR card reader's card-stream core

A shallow embedding, in Lean 4, of the stateful core of the repository:

* `poker_hand_reader.py` — the `PokerHandReader` class (card validation,
  the 2-card sliding "hole pair" window, the Arduino wire encoding, the
  serial send/receive failure handling, the reconnect backoff and the
  audio-cue dispatcher);
* `live_qr_detector.py` — the flop/turn/river milestone state machine kept
  by the camera loop.

Strings are modelled as Lean `String`s over their `List Char` data; the
ASCII fragment of Python's `str.strip` / `str.upper` / `str.isalnum` is
modelled explicitly.  Nondeterministic effects (serial I/O outcomes, the
filesystem, the enumeration order of a Python `set`) are passed in as
explicit oracle arguments.
-/

namespace QRCard

/-! ## Python string helpers (ASCII model) -/

/-- Python `str.strip()`: drop whitespace from both ends. -/
def pyStrip (s : List Char) : List Char :=
  ((s.dropWhile Char.isWhitespace).reverse.dropWhile Char.isWhitespace).reverse

/-- Python `str.upper()` on the ASCII fragment: uppercase every character. -/
def pyUpper (s : List Char) : List Char :=
  s.map Char.toUpper

/-- The character class of the regex `[A-Z0-9]` used by
`re.sub(r'[^A-Z0-9]', '', input_str)` in `validate_card`. -/
def isAZ09 (c : Char) : Bool :=
  (65 ≤ c.toNat && c.toNat ≤ 90) || (48 ≤ c.toNat && c.toNat ≤ 57)

/-- `extract_card_code` from `poker_hand_reader.py`: strip and uppercase,
then keep the leading run of alphanumeric characters. -/
def extract_card_code (card_str : String) : String :=
  String.mk ((pyUpper (pyStrip card_str.data)).takeWhile Char.isAlphanum)

/-! ## `PokerHandReader`: validation and encoding -/

/-- The 52-element `VALID_CARDS` set of `PokerHandReader`. -/
def VALID_CARDS : List String :=
  ["AS", "2S", "3S", "4S", "5S", "6S", "7S", "8S", "9S", "10S", "JS", "QS", "KS",
   "AH", "2H", "3H", "4H", "5H", "6H", "7H", "8H", "9H", "10H", "JH", "QH", "KH",
   "AD", "2D", "3D", "4D", "5D", "6D", "7D", "8D", "9D", "10D", "JD", "QD", "KD",
   "AC", "2C", "3C", "4C", "5C", "6C", "7C", "8C", "9C", "10C", "JC", "QC", "KC"]

/-- `PokerHandReader.validate_card`: strip, uppercase, delete every
character outside `[A-Z0-9]`, then accept exactly the codes of length 2–3
that are members of `VALID_CARDS`. -/
def validate_card (input_str : String) : Option String :=
  let s1 := pyUpper (pyStrip input_str.data)
  let s2 := s1.filter isAZ09
  if s2.length < 2 ∨ s2.length > 3 then none
  else if String.mk s2 ∈ VALID_CARDS then some (String.mk s2)
  else none

/-- The `suit_map.get(suit, 'D')` lookup of `card_to_list`: the suits
D, S, C, H pass through; anything else defaults to `"D"`. -/
def suit_map_get (c : Char) : String :=
  if c = 'D' ∨ c = 'S' ∨ c = 'C' ∨ c = 'H' then String.mk [c] else "D"

/-- `PokerHandReader.card_to_list`: split a card into rank (`card[:-1]`)
and suit (`card[-1]`) and emit the `[face, number, suit]` triple.  Python
raises `IndexError` on the empty string, modelled as `none`. -/
def card_to_list (card : String) : Option (List String) :=
  match card.data with
  | [] => none
  | c :: cs =>
    let chars := c :: cs
    let rank := String.mk chars.dropLast
    let suit_char := suit_map_get (chars.getLastD c)
    if rank = "A" then some ["A", "B", suit_char]
    else if rank = "J" then some ["J", "B", suit_char]
    else if rank = "Q" then some ["Q", "B", suit_char]
    else if rank = "K" then some ["K", "B", suit_char]
    else if rank = "10" then some ["N", "1", suit_char]
    else some ["N", rank, suit_char]

/-- The outbound frame built by `send_hand_to_arduino`:
`"HAND:" + ",".join(card1_list + card2_list) + "\n"`. -/
def hand_message (c1 c2 : String) : Option String :=
  match card_to_list c1, card_to_list c2 with
  | some l1, some l2 => some ("HAND:" ++ String.intercalate "," (l1 ++ l2) ++ "\n")
  | _, _ => none

/-! ## `PokerHandReader`: mutable state and serial I/O

The serial handle is `Option SerialPort` (`None` in Python when absent or
dropped); whether a physical write succeeds is an explicit oracle
(`IOOutcome`), distinguishing the `(OSError, SerialException)` branch from
the generic `except Exception` branch of the Python code. -/

/-- A pyserial handle, as far as the code observes it. -/
structure SerialPort where
  is_open : Bool
deriving Repr, DecidableEq

/-- Outcome of an attempted serial write (the oracle for the
`try`/`except` blocks around `self.serial.write`). -/
inductive IOOutcome
  | ok
  | ioError
  | otherError
deriving Repr, DecidableEq

/-- The mutable fields of `PokerHandReader`. -/
structure ReaderState where
  current_cards : List String
  card_count : Nat
  serial : Option SerialPort
deriving Repr, DecidableEq

/-- `PokerHandReader.__init__`. -/
def initReader : ReaderState :=
  { current_cards := [], card_count := 0, serial := none }

/-- `PokerHandReader.send_hand_to_arduino`: returns `(success, state',
frame)` where `frame` is the message written to the port, when a write was
attempted.  On `None` serial or wrong card count it fails without I/O; on
a closed port it drops the handle; a write hitting an
`OSError`/`SerialException` closes and discards the handle; the generic
`except Exception` branch (e.g. `IndexError` from an empty card string)
fails but keeps the handle. -/
def send_hand_to_arduino (s : ReaderState) (cards : List String)
    (io : IOOutcome) : Bool × ReaderState × Option String :=
  match s.serial with
  | none => (false, s, none)
  | some port =>
    if cards.length ≠ 2 then (false, s, none)
    else if port.is_open = false then (false, { s with serial := none }, none)
    else
      match hand_message (cards.getD 0 "") (cards.getD 1 "") with
      | none => (false, s, none)
      | some msg =>
        match io with
        | IOOutcome.ok => (true, s, some msg)
        | IOOutcome.ioError => (false, { s with serial := none }, some msg)
        | IOOutcome.otherError => (false, s, some msg)

/-- Result of `PokerHandReader.add_card`: whether the card was added, the
new state, and the 2-card hand passed to `send_hand_to_arduino` when a
send was attempted. -/
structure AddResult where
  added : Bool
  state : ReaderState
  sendAttempted : Option (List String)
deriving Repr, DecidableEq

/-- `PokerHandReader.add_card`: reject a card already in the window;
otherwise bump the counter, append, evict the oldest past capacity 2, and
forward the pair to the Arduino exactly when the window holds 2 cards and
the counter is even. -/
def add_card (s : ReaderState) (card : String) (io : IOOutcome) : AddResult :=
  if card ∈ s.current_cards then
    { added := false, state := s, sendAttempted := none }
  else
    let cc := s.card_count + 1
    let cur0 := s.current_cards ++ [card]
    let cur := if cur0.length > 2 then cur0.drop 1 else cur0
    let s1 : ReaderState := { s with current_cards := cur, card_count := cc }
    if cur.length = 2 ∧ cc % 2 = 0 then
      let r := send_hand_to_arduino s1 cur io
      { added := true, state := r.2.1, sendAttempted := some cur }
    else
      { added := true, state := s1, sendAttempted := none }

/-- Run `add_card` over a stream of (card, io-outcome) pairs. -/
def runAddCards (s : ReaderState) (steps : List (String × IOOutcome)) : ReaderState :=
  steps.foldl (fun st p => (add_card st p.1 p.2).state) s

/-! ## `live_qr_detector.py`: the flop/turn/river milestone machine

The camera loop keeps `unique_qr_codes` as a Python `set`.  We track the
set's *contents* as the first-seen-ordered list `uniqueCards`; the order
in which `list(unique_qr_codes)` happens to enumerate the set each frame
is hash-table state invisible to the abstract semantics, so it enters the
step function as an oracle `enum` (legitimate exactly when it is a
permutation of the contents). -/

/-- The per-hand state of the camera loop. -/
structure QRState where
  uniqueCards : List String
  flopDetected : Bool
  flopCards : List String
  turnDetected : Bool
  turnCard : Option String
  riverDetected : Bool
  riverCard : Option String
deriving Repr, DecidableEq

/-- The loop's state at startup. -/
def initQRState : QRState :=
  { uniqueCards := [], flopDetected := false, flopCards := [],
    turnDetected := false, turnCard := none,
    riverDetected := false, riverCard := none }

/-- `unique_qr_codes.add(qr_data)`: set insertion, contents tracked in
first-seen order. -/
def addUnique (l : List String) (x : String) : List String :=
  if x ∈ l then l else l ++ [x]

/-- Insert one frame's detected QR payloads into the set. -/
def insertFrame (l : List String) (detected : List String) : List String :=
  detected.foldl addUnique l

/-- One iteration of the poker logic (lines 529–591 of
`live_qr_detector.py`): insert the frame's codes, snapshot
`unique_list = list(unique_qr_codes)` (the oracle `enum`), then fire each
not-yet-fired milestone whose count threshold is met, capturing from
`unique_list`. -/
def processFrame (s : QRState) (detected : List String) (enum : List String) : QRState :=
  let u := insertFrame s.uniqueCards detected
  let cnt := u.length
  let s1 : QRState := { s with uniqueCards := u }
  let s2 := if 3 ≤ cnt ∧ s1.flopDetected = false then
      { s1 with flopCards := enum.take 3, flopDetected := true } else s1
  let s3 := if 4 ≤ cnt ∧ s2.turnDetected = false then
      { s2 with turnCard := enum.get? 3, turnDetected := true } else s2
  if 5 ≤ cnt ∧ s3.riverDetected = false then
    { s3 with riverCard := enum.get? 4, riverDetected := true } else s3

/-- An event of the camera loop: a processed frame (with its set
enumeration) or the `r` key (lines 894–907). -/
inductive QREvent
  | frame (detected : List String) (enum : List String)
  | reset
deriving Repr, DecidableEq

/-- One loop iteration. The `r` key clears the set, all three flags and
all three captures in one step. -/
def stepQR (s : QRState) : QREvent → QRState
  | QREvent.frame d e => processFrame s d e
  | QREvent.reset => initQRState

/-- A run of the camera loop from startup. -/
def runQR (evs : List QREvent) : QRState :=
  evs.foldl stepQR initQRState

/-! ## `main` of `poker_hand_reader.py`: link management

`attempt_serial_connect` and the Arduino-drain block of the main loop
mutate `ser`, `reader.serial` and `last_serial_attempt` (time modelled as
`ℚ`; `RECONNECT_INTERVAL = 5.0`). -/

/-- The closure state of `main` that the link code mutates. -/
structure LinkState where
  ser : Option SerialPort
  readerSerial : Option SerialPort
  last_serial_attempt : ℚ
deriving Repr, DecidableEq

/-- `RECONNECT_INTERVAL = 5.0  # seconds between reconnect attempts`. -/
def RECONNECT_INTERVAL : ℚ := 5

/-- Oracle for one `serial.Serial(...)` constructor call. -/
inductive OpenOutcome
  | opens
  | fails
deriving Repr, DecidableEq

/-- `attempt_serial_connect(force)`: returns the new state and the number
of `serial.Serial` open attempts performed (0 or 1).  `haveSerial` models
`HAVE_SERIAL`, `port` models `args.serial_port`, `now` models
`time.time()`, `oo` the outcome of the open attempt. -/
def attempt_serial_connect (haveSerial : Bool) (port : String)
    (ls : LinkState) (force : Bool) (now : ℚ) (oo : OpenOutcome) :
    LinkState × Nat :=
  if haveSerial = false then (ls, 0)
  else if port = "" then (ls, 0)
  else if force = false ∧ now - ls.last_serial_attempt < RECONNECT_INTERVAL then (ls, 0)
  else
    let ls1 : LinkState := { ls with last_serial_attempt := now }
    let alreadyOpen := match ls1.ser with
      | some p => p.is_open
      | none => false
    if alreadyOpen then (ls1, 0)
    else
      match oo with
      | OpenOutcome.opens =>
        ({ ls1 with ser := some { is_open := true },
                    readerSerial := some { is_open := true } }, 1)
      | OpenOutcome.fails =>
        ({ ls1 with ser := none, readerSerial := none }, 1)

/-- Oracle for one pass of the Arduino-drain block: either the buffered
lines are read successfully, or an `OSError`/`SerialException` is raised
mid-drain. -/
inductive RecvOutcome
  | ok (lines : List String)
  | ioError
deriving Repr, DecidableEq

/-- The `while ser.in_waiting:` drain block of the main loop (lines
926–962): it only runs when both handles are present; an I/O error closes
`ser`, clears both handles and zeroes the backoff clock, and the
surrounding `except` swallows the exception (the function is total). -/
def drain_arduino (ls : LinkState) (out : RecvOutcome) : LinkState :=
  match ls.ser, ls.readerSerial with
  | some _, some _ =>
    match out with
    | RecvOutcome.ok _ => ls
    | RecvOutcome.ioError =>
      { ls with ser := none, readerSerial := none, last_serial_attempt := 0 }
  | _, _ => ls

/-! ## `play_cards_audio`: the audio-cue dispatcher

The filesystem and the audio player enter as an oracle record. -/

/-- Filesystem/player oracle for `play_cards_audio`: does `AUDIO_DIR`
exist, which cue files exist (keyed by filename, e.g. `"AS.wav"`), and
which play successfully. -/
structure AudioFS where
  dirExists : Bool
  fileExists : String → Bool
  playOk : String → Bool

/-- One logged event of `play_cards_audio`. -/
inductive AudioEvent
  | skippedEmptyCode (card : String)
  | played (card : String) (file : String)
  | playFailed (card : String) (file : String)
  | missingFile (card : String) (file : String)
deriving Repr, DecidableEq

/-- The observable outcome of one `play_cards_audio` call. -/
structure AudioResult where
  dirCreated : Bool
  events : List AudioEvent
  played_count : Nat
deriving Repr, DecidableEq

/-- The per-card body of the `for i, card in enumerate(card_order, 1)`
loop. -/
def play_one_card (fs : AudioFS) (acc : List AudioEvent × Nat) (card : String) :
    List AudioEvent × Nat :=
  let code := extract_card_code card
  if code = "" then (acc.1 ++ [AudioEvent.skippedEmptyCode card], acc.2)
  else
    let file := code ++ ".wav"
    if fs.fileExists file then
      if fs.playOk file then (acc.1 ++ [AudioEvent.played card file], acc.2 + 1)
      else (acc.1 ++ [AudioEvent.playFailed card file], acc.2)
    else (acc.1 ++ [AudioEvent.missingFile card file], acc.2)

/-- `play_cards_audio(card_order)`: early-return on an empty list; if
`AUDIO_DIR` is missing, create it and play nothing; otherwise visit every
card in order, skipping empty codes and missing files and tolerating
player failures. -/
def play_cards_audio (fs : AudioFS) (card_order : List String) : AudioResult :=
  if card_order = [] then { dirCreated := false, events := [], played_count := 0 }
  else if fs.dirExists = false then
    { dirCreated := true, events := [], played_count := 0 }
  else
    let r := card_order.foldl (play_one_card fs) ([], 0)
    { dirCreated := false, events := r.1, played_count := r.2 }

/-- Whether `play_cards_audio` plays a cue for `card` (nonempty extracted
code, the `.wav` file exists, and the player succeeds). -/
def cuePlays (fs : AudioFS) (card : String) : Bool :=
  extract_card_code card ≠ "" &&
    fs.fileExists (extract_card_code card ++ ".wav") &&
    fs.playOk (extract_card_code card ++ ".wav")

/-- A filesystem state with the cue directory absent (used as the
counterexample input of C9). -/
def absentDirFS : AudioFS :=
  { dirExists := false, fileExists := fun _ => false, playOk := fun _ => false }

/-- The run invariant of the milestone machine: each milestone flag is
set exactly when the distinct-card count has reached its threshold. -/
def milestoneInv (s : QRState) : Prop :=
  (s.flopDetected = true ↔ 3 ≤ s.uniqueCards.length)
  ∧ (s.turnDetected = true ↔ 4 ≤ s.uniqueCards.length)
  ∧ (s.riverDetected = true ↔ 5 ≤ s.uniqueCards.length)

/-! ## Spec-side definition for the validator refinement (claim C6)

The spec describes `validate` as: strip surrounding whitespace, uppercase,
remove every non-alphanumeric character, then accept exactly the codes of
length 2–3 that lie in the 52-card set.  `validate_card_spec` renders
those words directly (with Lean's `Char.isAlphanum` as "alphanumeric");
the refinement theorem compares it with `validate_card`, which was
translated from the source (whose filter is the regex class `[A-Z0-9]`). -/

/-- The validator as the spec words it. -/
def validate_card_spec (input : String) : Option String :=
  let code := String.mk ((pyUpper (pyStrip input.data)).filter Char.isAlphanum)
  if 2 ≤ code.length ∧ code.length ≤ 3 ∧ code ∈ VALID_CARDS then some code else none

/-! ## Character-level lemmas -/

/-- `UInt32` order reflects into `Nat`. -/
lemma uint32_le_iff (a b : UInt32) : a ≤ b ↔ a.toNat ≤ b.toNat := by
  rw [UInt32.le_def]
  simp [BitVec.le_def]
  rfl

/-- `Char.isAlphanum` as arithmetic on the code point. -/
lemma isAlphanum_eq (d : Char) :
    d.isAlphanum = ((65 ≤ d.toNat && d.toNat ≤ 90) || (97 ≤ d.toNat && d.toNat ≤ 122)
      || (48 ≤ d.toNat && d.toNat ≤ 57)) := by
  simp only [Char.isAlphanum, Char.isAlpha, Char.isUpper, Char.isLower, Char.isDigit,
    Char.toNat, ge_iff_le, uint32_le_iff]
  norm_num

/-- The code point of `Char.toUpper`. -/
lemma toNat_toUpper (c : Char) :
    (Char.toUpper c).toNat
      = if 97 ≤ c.toNat ∧ c.toNat ≤ 122 then c.toNat - 32 else c.toNat := by
  show (if c.toNat ≥ 97 ∧ c.toNat ≤ 122 then Char.ofNat (c.toNat - 32) else c).toNat = _
  by_cases h : 97 ≤ c.toNat ∧ c.toNat ≤ 122
  · rw [if_pos ⟨h.1, h.2⟩, if_pos h]
    show (Char.ofNat (c.toNat - 32)).toNat = _
    unfold Char.ofNat
    split
    · rfl
    · rename_i h3
      exact absurd (Or.inl (by omega)) h3
  · rw [if_neg (fun hc => h ⟨hc.1, hc.2⟩), if_neg h]

/-- On the image of `Char.toUpper` (no lowercase letters survive), the
regex class `[A-Z0-9]` coincides with `Char.isAlphanum`. -/
lemma isAZ09_toUpper (c : Char) : isAZ09 (Char.toUpper c) = (Char.toUpper c).isAlphanum := by
  rw [isAlphanum_eq]
  simp only [isAZ09, toNat_toUpper]
  split
  · rw [Bool.eq_iff_iff]
    simp only [Bool.or_eq_true, Bool.and_eq_true, decide_eq_true_eq]
    omega
  · rw [Bool.eq_iff_iff]
    simp only [Bool.or_eq_true, Bool.and_eq_true, decide_eq_true_eq]
    omega

end QRCard

namespace QRCard

example : validate_card " as " = some "AS" := by decide
example : validate_card "a-s" = some "AS" := by decide
example : validate_card "10dx" = none := by decide
example : validate_card "ZZ" = none := by decide
example : card_to_list "AS" = some ["A", "B", "S"] := by decide
example : card_to_list "10D" = some ["N", "1", "D"] := by decide
example : card_to_list "7H" = some ["N", "7", "H"] := by decide
example : card_to_list "AX" = some ["A", "B", "D"] := by decide
example : hand_message "AS" "7H" = some "HAND:A,B,S,N,7,H\n" := by decide
example : hand_message "10D" "KH" = some "HAND:N,1,D,K,B,H\n" := by decide
example : extract_card_code "  as  " = "AS" := by decide
example : extract_card_code "7H extra" = "7H" := by decide

-- scratch: add_card traces
example :
    (runAddCards initReader
      [("AS", IOOutcome.ok), ("KH", IOOutcome.ok), ("2C", IOOutcome.ok),
       ("AS", IOOutcome.ok)]).current_cards = ["2C", "AS"] := by decide

example :
    (add_card { current_cards := ["AS", "KH"], card_count := 2, serial := none }
      "AS" IOOutcome.ok).added = false := by decide

-- scratch: QR machine trace with out-of-order set enumeration
example :
    (runQR [QREvent.frame ["AS"] ["AS"],
            QREvent.frame ["KH"] ["KH", "AS"],
            QREvent.frame ["2C"] ["KH", "2C", "AS"]]).flopCards
      = ["KH", "2C", "AS"] := by decide

example :
    (runQR [QREvent.frame ["AS"] ["AS"],
            QREvent.frame ["KH"] ["KH", "AS"],
            QREvent.frame ["2C"] ["KH", "2C", "AS"]]).uniqueCards
      = ["AS", "KH", "2C"] := by decide

/-! ## Claim theorems -/

/-- **C6.** For every input string, `validate_card` first strips
surrounding whitespace, uppercases, and removes every non-alphanumeric
character; it returns the resulting code exactly when that code has length
in [2,3] and is a member of the fixed 52-card set, and returns `none` for
every other input.  Stated as a refinement: the source translation
`validate_card` coincides, on every input, with `validate_card_spec`,
which is written from the spec's words.  (Both are pure Lean functions, so
freedom from side effects is inherent in the embedding.) -/
theorem validate_card_refines_spec (input : String) :
    validate_card input = validate_card_spec input := by
  unfold validate_card validate_card_spec
  dsimp only
  have hf : (pyUpper (pyStrip input.data)).filter isAZ09
      = (pyUpper (pyStrip input.data)).filter Char.isAlphanum := by
    apply List.filter_congr
    intro x hx
    simp only [pyUpper, List.mem_map] at hx
    obtain ⟨y, -, rfl⟩ := hx
    exact isAZ09_toUpper y
  rw [hf]
  set l := (pyUpper (pyStrip input.data)).filter Char.isAlphanum with hl
  simp only [String.length]
  by_cases hlen : l.length < 2 ∨ l.length > 3
  · rw [if_pos hlen, if_neg (by rintro ⟨h1, h2, -⟩; omega)]
  · rw [if_neg hlen]
    by_cases hm : String.mk l ∈ VALID_CARDS
    · rw [if_pos hm, if_pos ⟨by omega, by omega, hm⟩]
    · rw [if_neg hm, if_neg (fun h => hm h.2.2)]

/-- **C5.** `card_to_list` maps rank A/J/Q/K to `[letter, "B", suit]`,
rank "10" to `["N", "1", suit]`, ranks 2–9 to `["N", digit, suit]`, the
suit passing through unchanged for S/H/D/C; the pair ("AS","7H") encodes
to the tokens A,B,S,N,7,H and ("10D","KH") to N,1,D,K,B,H; the outbound
frame is `"HAND:"` plus the 6 comma-joined tokens plus a newline. -/
theorem card_encoding (c : Char) (hc : c ∈ (['S', 'H', 'D', 'C'] : List Char)) :
    (∀ r ∈ (['A', 'J', 'Q', 'K'] : List Char),
      card_to_list (String.mk [r, c]) = some [String.mk [r], "B", String.mk [c]])
    ∧ card_to_list (String.mk ['1', '0', c]) = some ["N", "1", String.mk [c]]
    ∧ (∀ d ∈ (['2', '3', '4', '5', '6', '7', '8', '9'] : List Char),
      card_to_list (String.mk [d, c]) = some ["N", String.mk [d], String.mk [c]])
    ∧ hand_message "AS" "7H" = some "HAND:A,B,S,N,7,H\n"
    ∧ hand_message "10D" "KH" = some "HAND:N,1,D,K,B,H\n" := by
  fin_cases hc <;> decide

/-- Witness for C5 at the concrete suit `'S'`. -/
theorem card_encoding_witness :
    (∀ r ∈ (['A', 'J', 'Q', 'K'] : List Char),
      card_to_list (String.mk [r, 'S']) = some [String.mk [r], "B", String.mk ['S']])
    ∧ card_to_list (String.mk ['1', '0', 'S']) = some ["N", "1", String.mk ['S']]
    ∧ (∀ d ∈ (['2', '3', '4', '5', '6', '7', '8', '9'] : List Char),
      card_to_list (String.mk [d, 'S']) = some ["N", String.mk [d], String.mk ['S']])
    ∧ hand_message "AS" "7H" = some "HAND:A,B,S,N,7,H\n"
    ∧ hand_message "10D" "KH" = some "HAND:N,1,D,K,B,H\n" :=
  card_encoding 'S' (by decide)

/-- **C10.** For every input string with a last character outside
S/H/D/C, `card_to_list` silently emits the defaulted suit token `"D"`
instead of rejecting the card: `suit_map.get(suit, 'D')` performs no suit
validation. -/
theorem card_to_list_defaults_suit (card : String) (c : Char)
    (hlast : card.data.getLast? = some c)
    (hc : c ∉ (['S', 'H', 'D', 'C'] : List Char)) :
    ∃ f n, card_to_list card = some [f, n, "D"] := by
  obtain ⟨c0, cs, hdata⟩ : ∃ c0 cs, card.data = c0 :: cs := by
    cases hd : card.data with
    | nil => rw [hd] at hlast; simp at hlast
    | cons a l => exact ⟨a, l, rfl⟩
  rw [hdata] at hlast
  have hgl : (c0 :: cs).getLastD c0 = c := by
    rw [List.getLastD_eq_getLast?, hlast]
    rfl
  have hdflt : suit_map_get c = "D" := by
    unfold suit_map_get
    rw [if_neg]
    intro h
    simp only [List.mem_cons, List.not_mem_nil, or_false] at hc
    rcases h with h | h | h | h <;> simp [h] at hc
  simp only [card_to_list, hdata]
  rw [hgl, hdflt]
  split_ifs <;> exact ⟨_, _, rfl⟩

/-- Witness for C10 at the concrete input `"AX"`. -/
theorem card_to_list_defaults_suit_witness :
    ∃ f n, card_to_list "AX" = some [f, n, "D"] :=
  card_to_list_defaults_suit "AX" 'X' (by decide) (by decide)

/-! ### Helper lemmas about `add_card` -/

/-- `send_hand_to_arduino` only ever touches the `serial` field. -/
lemma send_preserves_cards (s : ReaderState) (cards : List String) (io : IOOutcome) :
    (send_hand_to_arduino s cards io).2.1.current_cards = s.current_cards
    ∧ (send_hand_to_arduino s cards io).2.1.card_count = s.card_count := by
  unfold send_hand_to_arduino
  cases hs : s.serial with
  | none => exact ⟨rfl, rfl⟩
  | some p =>
    dsimp only
    split_ifs
    · exact ⟨rfl, rfl⟩
    · exact ⟨rfl, rfl⟩
    · cases hand_message (cards.getD 0 "") (cards.getD 1 "") with
      | none => exact ⟨rfl, rfl⟩
      | some msg => cases io <;> exact ⟨rfl, rfl⟩

/-- In the non-duplicate case, `add_card` accepts the card, bumps the
counter, and applies the capacity-2 eviction to the window. -/
lemma add_card_state (s : ReaderState) (card : String) (io : IOOutcome)
    (h : card ∉ s.current_cards) :
    (add_card s card io).added = true
    ∧ (add_card s card io).state.current_cards
        = (if (s.current_cards ++ [card]).length > 2
           then (s.current_cards ++ [card]).drop 1 else s.current_cards ++ [card])
    ∧ (add_card s card io).state.card_count = s.card_count + 1 := by
  unfold add_card
  rw [if_neg h]
  dsimp only
  by_cases hev : (s.current_cards ++ [card]).length > 2
  · simp only [if_pos hev]
    split
    · exact ⟨rfl, (send_preserves_cards _ _ _).1, (send_preserves_cards _ _ _).2⟩
    · exact ⟨rfl, rfl, rfl⟩
  · simp only [if_neg hev]
    split
    · exact ⟨rfl, (send_preserves_cards _ _ _).1, (send_preserves_cards _ _ _).2⟩
    · exact ⟨rfl, rfl, rfl⟩

/-- One `add_card` call keeps the window at capacity ≤ 2. -/
lemma add_card_len (s : ReaderState) (card : String) (io : IOOutcome)
    (h : s.current_cards.length ≤ 2) :
    (add_card s card io).state.current_cards.length ≤ 2 := by
  by_cases hdup : card ∈ s.current_cards
  · simp only [add_card, if_pos hdup]
    exact h
  · rw [(add_card_state s card io hdup).2.1]
    by_cases hev : (s.current_cards ++ [card]).length > 2
    · rw [if_pos hev]
      simp only [List.length_drop, List.length_append, List.length_singleton]
      omega
    · rw [if_neg hev]
      omega

/-- Every state reachable by `add_card` calls from `initReader` has a
window of at most 2 cards. -/
lemma runAddCards_len (steps : List (String × IOOutcome)) :
    ∀ s : ReaderState, s.current_cards.length ≤ 2 →
      (runAddCards s steps).current_cards.length ≤ 2 := by
  induction steps with
  | nil => intro s h; exact h
  | cons p rest ih =>
    intro s h
    exact ih _ (add_card_len s p.1 p.2 h)

/-- **C3.** The hole-pair window: (i) every state reachable from the
initial state holds at most 2 cards; (ii) one call preserves capacity
≤ 2; (iii) a duplicate of a currently-windowed card is rejected with the
window, counter and serial all unchanged; (iv) accepting a 3rd card into
a full window evicts the oldest (FIFO); (v) a card evicted earlier
("AS", evicted by "2C") is accepted again later. -/
theorem hole_pair_window :
    (∀ steps, (runAddCards initReader steps).current_cards.length ≤ 2)
    ∧ (∀ (s : ReaderState) (card : String) (io : IOOutcome),
        s.current_cards.length ≤ 2 →
          (add_card s card io).state.current_cards.length ≤ 2)
    ∧ (∀ (s : ReaderState) (card : String) (io : IOOutcome),
        card ∈ s.current_cards →
          add_card s card io = ⟨false, s, none⟩)
    ∧ (∀ (s : ReaderState) (a b card : String) (io : IOOutcome),
        s.current_cards = [a, b] → card ∉ ([a, b] : List String) →
          (add_card s card io).added = true
            ∧ (add_card s card io).state.current_cards = [b, card])
    ∧ (add_card (runAddCards initReader
          [("AS", IOOutcome.ok), ("KH", IOOutcome.ok), ("2C", IOOutcome.ok)])
          "AS" IOOutcome.ok).added = true := by
  refine ⟨fun steps => runAddCards_len steps initReader (by decide),
    add_card_len, ?_, ?_, by decide⟩
  · intro s card io hdup
    simp only [add_card, if_pos hdup]
  · intro s a b card io hs hcard
    have h3 : card ∉ s.current_cards := by rw [hs]; exact hcard
    have hst := add_card_state s card io h3
    refine ⟨hst.1, ?_⟩
    rw [hst.2.1, hs]
    simp

/-- **C4.** `add_card` forwards the hole pair to the device exactly when
the card was accepted, the post-state window holds 2 cards and the
post-state accepted-card counter is even; a duplicate, an odd counter or
an underfull window attempt no send. -/
theorem add_card_send_policy (s : ReaderState) (card : String) (io : IOOutcome) :
    (add_card s card io).sendAttempted
      = if (add_card s card io).added = true
            ∧ (add_card s card io).state.current_cards.length = 2
            ∧ (add_card s card io).state.card_count % 2 = 0
        then some ((add_card s card io).state.current_cards)
        else none := by
  by_cases hdup : card ∈ s.current_cards
  · simp [add_card, if_pos hdup]
  · unfold add_card
    rw [if_neg hdup]
    dsimp only
    by_cases hev : (s.current_cards ++ [card]).length > 2
    · simp only [if_pos hev]
      split
      · rename_i hcond
        rw [(send_preserves_cards _ _ _).1, (send_preserves_cards _ _ _).2]
        rw [if_pos ⟨rfl, hcond.1, hcond.2⟩]
      · rename_i hcond
        rw [if_neg (fun h => hcond ⟨h.2.1, h.2.2⟩)]
    · simp only [if_neg hev]
      split
      · rename_i hcond
        rw [(send_preserves_cards _ _ _).1, (send_preserves_cards _ _ _).2]
        rw [if_pos ⟨rfl, hcond.1, hcond.2⟩]
      · rename_i hcond
        rw [if_neg (fun h => hcond ⟨h.2.1, h.2.2⟩)]

/-- Witness for C3: the FIFO clause applied at the concrete full window
`["AS", "KH"]` receiving `"2C"`. -/
theorem hole_pair_window_witness :
    (add_card { current_cards := ["AS", "KH"], card_count := 2, serial := none }
      "2C" IOOutcome.ok).added = true
    ∧ (add_card { current_cards := ["AS", "KH"], card_count := 2, serial := none }
      "2C" IOOutcome.ok).state.current_cards = ["KH", "2C"] :=
  hole_pair_window.2.2.2.1
    { current_cards := ["AS", "KH"], card_count := 2, serial := none }
    "AS" "KH" "2C" IOOutcome.ok rfl (by decide)

/-! ### Helper lemmas about the milestone machine -/

/-- Set insertion never shrinks the contents. -/
lemma length_le_addUnique (l : List String) (x : String) :
    l.length ≤ (addUnique l x).length := by
  unfold addUnique
  split
  · exact le_refl _
  · simp

/-- Inserting a frame never shrinks the contents. -/
lemma length_le_insertFrame (d : List String) :
    ∀ l : List String, l.length ≤ (insertFrame l d).length := by
  induction d with
  | nil => intro l; exact le_refl _
  | cons x xs ih =>
    intro l
    exact le_trans (length_le_addUnique l x) (ih (addUnique l x))

/-- Field-level characterization of one frame step: the contents grow by
set insertion and each flag is the old flag OR-ed with its threshold test
on the new count. -/
lemma processFrame_fields (s : QRState) (d e : List String) :
    (processFrame s d e).uniqueCards = insertFrame s.uniqueCards d
    ∧ (processFrame s d e).flopDetected
        = (s.flopDetected || decide (3 ≤ (insertFrame s.uniqueCards d).length))
    ∧ (processFrame s d e).turnDetected
        = (s.turnDetected || decide (4 ≤ (insertFrame s.uniqueCards d).length))
    ∧ (processFrame s d e).riverDetected
        = (s.riverDetected || decide (5 ≤ (insertFrame s.uniqueCards d).length)) := by
  unfold processFrame
  dsimp only
  split_ifs <;> simp_all

lemma milestoneInv_init : milestoneInv initQRState := by
  refine ⟨?_, ?_, ?_⟩ <;> simp [initQRState]

lemma milestoneInv_step (s : QRState) (ev : QREvent) (h : milestoneInv s) :
    milestoneInv (stepQR s ev) := by
  cases ev with
  | reset => exact milestoneInv_init
  | frame d e =>
    obtain ⟨h1, h2, h3⟩ := h
    have hf := processFrame_fields s d e
    have hmono := length_le_insertFrame d s.uniqueCards
    show milestoneInv (processFrame s d e)
    unfold milestoneInv
    rw [hf.1, hf.2.1, hf.2.2.1, hf.2.2.2]
    simp only [Bool.or_eq_true, decide_eq_true_eq]
    refine ⟨⟨?_, fun hl => Or.inr hl⟩, ⟨?_, fun hl => Or.inr hl⟩, ⟨?_, fun hl => Or.inr hl⟩⟩
    · rintro (hb | hb)
      · have := h1.mp hb; omega
      · exact hb
    · rintro (hb | hb)
      · have := h2.mp hb; omega
      · exact hb
    · rintro (hb | hb)
      · have := h3.mp hb; omega
      · exact hb

lemma milestoneInv_run (evs : List QREvent) : milestoneInv (runQR evs) := by
  suffices h : ∀ s, milestoneInv s → milestoneInv (evs.foldl stepQR s) from
    h initQRState milestoneInv_init
  induction evs with
  | nil => exact fun s hs => hs
  | cons ev rest ih =>
    intro s hs
    exact ih _ (milestoneInv_step s ev hs)

/-- **C2.** The milestone state machine: over every run of the camera
loop, each flag holds exactly when the distinct-card count has reached
3, 4, 5 respectively (so each is set exactly once per hand, at the first
crossing of its threshold); a set flag survives any further frame (only
reset clears it); flags can only appear in the order flop ≤ turn ≤ river;
and reset restores the full initial state — empty collection, all flags
down, all captures cleared — in one step. -/
theorem milestone_machine :
    (∀ evs, milestoneInv (runQR evs))
    ∧ (∀ s d e, s.flopDetected = true → (processFrame s d e).flopDetected = true)
    ∧ (∀ s d e, s.turnDetected = true → (processFrame s d e).turnDetected = true)
    ∧ (∀ s d e, s.riverDetected = true → (processFrame s d e).riverDetected = true)
    ∧ (∀ evs, (runQR evs).turnDetected = true → (runQR evs).flopDetected = true)
    ∧ (∀ evs, (runQR evs).riverDetected = true → (runQR evs).turnDetected = true)
    ∧ (∀ s, stepQR s QREvent.reset = initQRState) := by
  refine ⟨milestoneInv_run, ?_, ?_, ?_, ?_, ?_, fun s => rfl⟩
  · intro s d e h
    rw [(processFrame_fields s d e).2.1, h, Bool.true_or]
  · intro s d e h
    rw [(processFrame_fields s d e).2.2.1, h, Bool.true_or]
  · intro s d e h
    rw [(processFrame_fields s d e).2.2.2, h, Bool.true_or]
  · intro evs h
    obtain ⟨h1, h2, -⟩ := milestoneInv_run evs
    have := h2.mp h
    exact h1.mpr (by omega)
  · intro evs h
    obtain ⟨-, h2, h3⟩ := milestoneInv_run evs
    have := h3.mp h
    exact h2.mpr (by omega)

/-- Witness for C2: a single frame revealing 4 distinct cards sets the
turn flag, and the order clause then forces the flop flag. -/
theorem milestone_machine_witness :
    (runQR [QREvent.frame ["AS", "KH", "2C", "4D"] ["AS", "KH", "2C", "4D"]]).flopDetected
      = true :=
  milestone_machine.2.2.2.2.1
    [QREvent.frame ["AS", "KH", "2C", "4D"] ["AS", "KH", "2C", "4D"]] (by decide)

/-- **C1** (failing-input evaluation). The camera loop's collection is a
Python `set`, and the milestone captures read `unique_list =
list(unique_qr_codes)`, whose order is the hash table's iteration order,
not first-seen order.  Scanning AS, KH, 2C in that order while the set
enumerates as KH, 2C, AS (a legitimate enumeration: a permutation of the
contents, as string hashing makes possible) yields a flop capture that is
NOT the first 3 distinct cards in observation order, contradicting the
claim and the code's own comments. -/
theorem flop_capture_follows_set_order :
    (runQR [QREvent.frame ["AS"] ["AS"],
            QREvent.frame ["KH"] ["KH", "AS"],
            QREvent.frame ["2C"] ["KH", "2C", "AS"]]).uniqueCards = ["AS", "KH", "2C"]
    ∧ (runQR [QREvent.frame ["AS"] ["AS"],
            QREvent.frame ["KH"] ["KH", "AS"],
            QREvent.frame ["2C"] ["KH", "2C", "AS"]]).flopCards = ["KH", "2C", "AS"]
    ∧ (runQR [QREvent.frame ["AS"] ["AS"],
            QREvent.frame ["KH"] ["KH", "AS"],
            QREvent.frame ["2C"] ["KH", "2C", "AS"]]).flopCards ≠ ["AS", "KH", "2C"]
    ∧ List.Perm ["KH", "AS"] ["AS", "KH"]
    ∧ List.Perm ["KH", "2C", "AS"] ["AS", "KH", "2C"] := by
  refine ⟨by decide, by decide, by decide, ?_, ?_⟩
  · exact List.Perm.swap "AS" "KH" []
  · have h1 : List.Perm ["KH", "2C", "AS"] ["KH", "AS", "2C"] :=
      List.Perm.cons "KH" (List.Perm.swap "AS" "2C" [])
    have h2 : List.Perm ["KH", "AS", "2C"] ["AS", "KH", "2C"] :=
      List.Perm.swap "AS" "KH" ["2C"]
    exact h1.trans h2

/-- **C7.** An I/O failure (`OSError`/`SerialException`) during a send
that actually attempted a write returns `False` and discards the serial
handle; an I/O failure while draining the Arduino clears both handles
(and zeroes the backoff clock) — in both cases the functions return
normally, so no exception escapes the control loop. -/
theorem link_failure_disconnects :
    (∀ (s : ReaderState) (cards : List String),
        (send_hand_to_arduino s cards IOOutcome.ioError).2.2.isSome = true →
          (send_hand_to_arduino s cards IOOutcome.ioError).1 = false
          ∧ (send_hand_to_arduino s cards IOOutcome.ioError).2.1.serial = none)
    ∧ (∀ ls : LinkState, ls.ser.isSome = true → ls.readerSerial.isSome = true →
        drain_arduino ls RecvOutcome.ioError
          = { ls with ser := none, readerSerial := none, last_serial_attempt := 0 }) := by
  constructor
  · intro s cards h
    unfold send_hand_to_arduino at h ⊢
    cases hs : s.serial with
    | none => rw [hs] at h; simp at h
    | some p =>
      rw [hs] at h
      dsimp only at h ⊢
      split_ifs at h ⊢ with h1 h2
      · simp at h
      · simp at h
      · cases hm : hand_message (cards.getD 0 "") (cards.getD 1 "") with
        | none => rw [hm] at h; simp at h
        | some msg => exact ⟨rfl, rfl⟩
  · intro ls h1 h2
    unfold drain_arduino
    cases hs : ls.ser with
    | none => rw [hs] at h1; simp at h1
    | some p =>
      cases hr : ls.readerSerial with
      | none => rw [hr] at h2; simp at h2
      | some q => rfl

/-- Witness for C7: a connected reader whose write raises an I/O error,
and a connected loop state whose drain raises an I/O error. -/
theorem link_failure_disconnects_witness :
    ((send_hand_to_arduino
        { current_cards := ["AS", "KH"], card_count := 2, serial := some { is_open := true } }
        ["AS", "KH"] IOOutcome.ioError).1 = false
      ∧ (send_hand_to_arduino
        { current_cards := ["AS", "KH"], card_count := 2, serial := some { is_open := true } }
        ["AS", "KH"] IOOutcome.ioError).2.1.serial = none)
    ∧ drain_arduino
        { ser := some { is_open := true }, readerSerial := some { is_open := true },
          last_serial_attempt := 7 } RecvOutcome.ioError
      = { ser := none, readerSerial := none, last_serial_attempt := 0 } :=
  ⟨link_failure_disconnects.1
      { current_cards := ["AS", "KH"], card_count := 2, serial := some { is_open := true } }
      ["AS", "KH"] (by decide),
   link_failure_disconnects.2
      { ser := some { is_open := true }, readerSerial := some { is_open := true },
        last_serial_attempt := 7 } (by decide) (by decide)⟩

/-- **C8.** Reconnect attempts are rate-limited: a non-forced call within
the 5-second backoff interval since the last attempt performs no open
attempt and leaves the state untouched; once the interval has elapsed, a
call made while the link is down performs exactly one open attempt. -/
theorem reconnect_backoff :
    (∀ (hs : Bool) (port : String) (ls : LinkState) (now : ℚ) (oo : OpenOutcome),
        now - ls.last_serial_attempt < RECONNECT_INTERVAL →
          attempt_serial_connect hs port ls false now oo = (ls, 0))
    ∧ (∀ (port : String) (ls : LinkState) (force : Bool) (now : ℚ) (oo : OpenOutcome),
        port ≠ "" → RECONNECT_INTERVAL ≤ now - ls.last_serial_attempt →
          ls.ser = none →
          (attempt_serial_connect true port ls force now oo).2 = 1) := by
  constructor
  · intro hs port ls now oo h
    unfold attempt_serial_connect
    cases hs with
    | false => rw [if_pos rfl]
    | true =>
      rw [if_neg (by simp)]
      by_cases hp : port = ""
      · rw [if_pos hp]
      · rw [if_neg hp, if_pos ⟨rfl, h⟩]
  · intro port ls force now oo hp hint hser
    unfold attempt_serial_connect
    rw [if_neg (by simp), if_neg hp,
      if_neg (fun hc => absurd hint (not_le.mpr hc.2))]
    dsimp only
    rw [hser]
    dsimp only
    cases oo <;> rfl

/-- Witness for C8: at `now = 4` (2 time units after an attempt at
`last = 2`) a non-forced call does nothing; at `now = 9` with the link
down, one open attempt is made. -/
theorem reconnect_backoff_witness :
    attempt_serial_connect true "/dev/ttyACM0"
        { ser := none, readerSerial := none, last_serial_attempt := 2 }
        false 4 OpenOutcome.fails
      = ({ ser := none, readerSerial := none, last_serial_attempt := 2 }, 0)
    ∧ (attempt_serial_connect true "/dev/ttyACM0"
        { ser := none, readerSerial := none, last_serial_attempt := 2 }
        false 9 OpenOutcome.fails).2 = 1 :=
  ⟨reconnect_backoff.1 true "/dev/ttyACM0"
      { ser := none, readerSerial := none, last_serial_attempt := 2 }
      4 OpenOutcome.fails (by norm_num [RECONNECT_INTERVAL]),
   reconnect_backoff.2 "/dev/ttyACM0"
      { ser := none, readerSerial := none, last_serial_attempt := 2 }
      false 9 OpenOutcome.fails (by decide) (by norm_num [RECONNECT_INTERVAL]) rfl⟩

/-! ### Helper lemmas about the audio dispatcher -/

/-- The played count accumulated by the per-card loop equals the number
of cards whose cue actually plays — each card is handled independently,
so a missing cue or player failure never blocks the rest of the batch. -/
lemma play_fold_count (fs : AudioFS) (cards : List String) :
    ∀ acc : List AudioEvent × Nat,
      (cards.foldl (play_one_card fs) acc).2
        = acc.2 + (cards.filter (cuePlays fs)).length := by
  induction cards with
  | nil => intro acc; simp
  | cons c rest ih =>
    intro acc
    rw [List.foldl_cons, ih, List.filter_cons]
    unfold play_one_card cuePlays
    by_cases h1 : extract_card_code c = ""
    · simp [h1]
    · by_cases h2 : fs.fileExists (extract_card_code c ++ ".wav")
      · by_cases h3 : fs.playOk (extract_card_code c ++ ".wav")
        · simp [h1, h2, h3]
          omega
        · simp [h1, h2, h3]
      · simp [h1, h2]

/-- **C9** (counterexample). The claim says that whenever the cue
directory is absent it is created; but `play_cards_audio` returns on an
empty card list *before* the directory check, so with the directory
absent and an empty sequence no creation happens (`dirCreated = false`,
where the claim demands `true`). -/
theorem play_audio_empty_skips_mkdir :
    absentDirFS.dirExists = false
    ∧ (play_cards_audio absentDirFS []).dirCreated = false :=
  ⟨rfl, rfl⟩

/-- **C9** (amended). For every card sequence: with the cue directory
present, the played count is exactly the number of cards whose extracted
code is nonempty, whose `.wav` cue exists, and whose playback succeeds —
so a missing cue or a per-card player failure is skipped and the rest of
the batch is still processed, and no directory is created; with the
directory absent and a *nonempty* sequence, the directory is created and
zero cues are played; with the directory absent and an empty sequence,
the call returns immediately with zero cues and no directory creation.
In all cases the function is total: the call never fails. -/
theorem play_audio_dispatch (fs : AudioFS) (cards : List String) :
    (fs.dirExists = true →
      (play_cards_audio fs cards).played_count = (cards.filter (cuePlays fs)).length
      ∧ (play_cards_audio fs cards).dirCreated = false)
    ∧ (fs.dirExists = false → cards ≠ [] →
      play_cards_audio fs cards
        = { dirCreated := true, events := [], played_count := 0 })
    ∧ (fs.dirExists = false → cards = [] →
      play_cards_audio fs cards
        = { dirCreated := false, events := [], played_count := 0 }) := by
  refine ⟨?_, ?_, ?_⟩
  · intro hdir
    unfold play_cards_audio
    by_cases hc : cards = []
    · subst hc
      exact ⟨rfl, rfl⟩
    · rw [if_neg hc, if_neg (by simp [hdir])]
      refine ⟨?_, rfl⟩
      show (cards.foldl (play_one_card fs) ([], 0)).2 = _
      rw [play_fold_count fs cards ([], 0)]
      exact Nat.zero_add _
  · intro hdir hc
    unfold play_cards_audio
    rw [if_neg hc, if_pos hdir]
  · intro hdir hc
    subst hc
    rfl

/-- Witness for C9: with only `AS.wav` present, playing `["AS", "7H"]`
plays exactly one cue; with the directory absent, a nonempty batch
creates it and plays nothing. -/
theorem play_audio_dispatch_witness :
    ((play_cards_audio
        { dirExists := true, fileExists := fun f => f = "AS.wav", playOk := fun _ => true }
        ["AS", "7H"]).played_count
      = (["AS", "7H"].filter (cuePlays
        { dirExists := true, fileExists := fun f => f = "AS.wav", playOk := fun _ => true })).length
      ∧ (play_cards_audio
        { dirExists := true, fileExists := fun f => f = "AS.wav", playOk := fun _ => true }
        ["AS", "7H"]).dirCreated = false)
    ∧ play_cards_audio absentDirFS ["AS"]
        = { dirCreated := true, events := [], played_count := 0 } :=
  ⟨(play_audio_dispatch
      { dirExists := true, fileExists := fun f => f = "AS.wav", playOk := fun _ => true }
      ["AS", "7H"]).1 rfl,
   (play_audio_dispatch absentDirFS ["AS"]).2.1 rfl (by simp)⟩

end QRCard
